import Mathlib

/-!
Verification of the iris-tracker signal-extraction core (`src/iris-tracker.js`).

The JavaScript source is shallowly embedded: JS numbers are modelled as
exact rationals `ℚ`; `Math.sqrt` is kept abstract as a parameter
`sq : ℚ → ℚ` (every algebraic claim proved here holds for every square-root
function, and the facts `sq 0 = 0`, `0 < q → 0 < sq q`, true of the real
square root, are taken as hypotheses where needed); the mutable fields of
the `IrisTracker` class that the gesture state machine touches are gathered
in an explicit `TrackerState` record, and per-frame methods become pure
state-transition functions returning the new state together with the
emitted event flag.
-/

namespace IrisTracker

/-- A 2-D point `{x, y}` as used by the source (landmark coordinates). -/
structure Point where
  x : ℚ
  y : ℚ
deriving DecidableEq, Repr

/-- `this.EAR_THRESHOLD = 0.21` from the constructor. -/
def EAR_THRESHOLD : ℚ := 21 / 100

/-- `this.BLINK_CONSEC_FRAMES = 2` from the constructor. -/
def BLINK_CONSEC_FRAMES : ℕ := 2

/-- `this.maxEarHistory = 100` from the constructor. -/
def maxEarHistory : ℕ := 100

/-- `this.maxGazeHistory = 5` from the constructor. -/
def maxGazeHistory : ℕ := 5

/-- `this.maxPupilHistory = 30` from the constructor. -/
def maxPupilHistory : ℕ := 30

/-- `this.leftGazeThreshold = 0.65` from the constructor. -/
def leftGazeThreshold : ℚ := 65 / 100

/-- `this.rightGazeThreshold = 0.35` from the constructor. -/
def rightGazeThreshold : ℚ := 35 / 100

/-- `this.leftGazeRequired = 10` from the constructor. -/
def leftGazeRequired : ℤ := 10

/-- `this.rightGazeRequired = 10` from the constructor. -/
def rightGazeRequired : ℤ := 10

/-- Scaling a normalized landmark to pixel coordinates, the
`{x: lm.x * width, y: lm.y * height}` step that opens `calculateEAR`,
`calculateGazeRatio` and `calculatePupilSize`. -/
def scalePoint (width height : ℚ) (lm : Point) : Point :=
  ⟨lm.x * width, lm.y * height⟩

/-- `distance(p1, p2)` from the source:
`Math.sqrt(Math.pow(p2.x-p1.x,2) + Math.pow(p2.y-p1.y,2))`, with the square
root abstracted as `sq`. -/
def distance (sq : ℚ → ℚ) (p1 p2 : Point) : ℚ :=
  sq ((p2.x - p1.x) ^ 2 + (p2.y - p1.y) ^ 2)

/-- `getCenter(landmarks, width, height)` from the source: the mean of the
normalized `x` (resp. `y`) coordinates is taken first and the mean is then
multiplied by `width` (resp. `height`).  For the empty list the source
would produce `NaN` (0/0); the `ℚ` convention `a / 0 = 0` stands in for
that junk value — all callers pass 4 or 6 points. -/
def getCenter (landmarks : List Point) (width height : ℚ) : Point :=
  ⟨(landmarks.map Point.x).sum / landmarks.length * width,
   (landmarks.map Point.y).sum / landmarks.length * height⟩

/-- Centroid of a point set, as used by the specification's wording: the
arithmetic mean of the (already scaled) points themselves. -/
def centroid (points : List Point) : Point :=
  ⟨(points.map Point.x).sum / points.length,
   (points.map Point.y).sum / points.length⟩

/-- `Math.min(...)` over a coordinate list.  `Math.min()` of no arguments
is `+Infinity`; callers always pass the 6 eye points, so the empty case is
given an arbitrary value. -/
def listMin : List ℚ → ℚ
  | [] => 0
  | a :: rest => rest.foldl min a

/-- `Math.max(...)` over a coordinate list (see `listMin`). -/
def listMax : List ℚ → ℚ
  | [] => 0
  | a :: rest => rest.foldl max a

/-- `calculateEAR(eyeLandmarks, width, height)` from the source: scale the
six landmarks, then `(v1 + v2) / (2.0 * h)` with `v1 = distance(p1,p5)`,
`v2 = distance(p2,p4)`, `h = distance(p0,p3)`.  Out-of-range indexing
(never exercised: callers pass exactly 6 points) defaults to the origin. -/
def calculateEAR (sq : ℚ → ℚ) (eyeLandmarks : List Point) (width height : ℚ) : ℚ :=
  let points := eyeLandmarks.map (scalePoint width height)
  let v1 := distance sq (points.getD 1 ⟨0, 0⟩) (points.getD 5 ⟨0, 0⟩)
  let v2 := distance sq (points.getD 2 ⟨0, 0⟩) (points.getD 4 ⟨0, 0⟩)
  let h := distance sq (points.getD 0 ⟨0, 0⟩) (points.getD 3 ⟨0, 0⟩)
  (v1 + v2) / (2 * h)

/-- A JavaScript `number` when the IEEE-754 special values matter. -/
inductive JSNumber where
  | finite : ℚ → JSNumber
  | posInf : JSNumber
  | negInf : JSNumber
  | nan : JSNumber
deriving DecidableEq, Repr

/-- IEEE-754 division of two finite values: a nonzero divisor gives the
exact quotient, a zero divisor gives `+Infinity` / `-Infinity` / `NaN`
according to the sign of the dividend. -/
def jsDiv (a b : ℚ) : JSNumber :=
  if b = 0 then
    if 0 < a then .posInf else if a < 0 then .negInf else .nan
  else .finite (a / b)

/-- `calculateEAR` again, with the final division `(v1 + v2) / (2.0 * h)`
(source line 302) given IEEE-754 semantics so that the zero-divisor
behaviour of the unguarded source division is visible. -/
def calculateEARjs (sq : ℚ → ℚ) (eyeLandmarks : List Point) (width height : ℚ) : JSNumber :=
  let points := eyeLandmarks.map (scalePoint width height)
  let v1 := distance sq (points.getD 1 ⟨0, 0⟩) (points.getD 5 ⟨0, 0⟩)
  let v2 := distance sq (points.getD 2 ⟨0, 0⟩) (points.getD 4 ⟨0, 0⟩)
  let h := distance sq (points.getD 0 ⟨0, 0⟩) (points.getD 3 ⟨0, 0⟩)
  jsDiv (v1 + v2) (2 * h)

/-- `calculateGazeRatio(irisLandmarks, eyeLandmarks, width, height)` from
the source: iris center via `getCenter`, eye bounding box via
`Math.min`/`Math.max` over the scaled eye points, then the two ratios when
the box is non-degenerate, else the neutral `{h: 0.5, v: 0.5}`.  The result
pair is `(h, v)`. -/
def calculateGazeRatio (irisLandmarks eyeLandmarks : List Point) (width height : ℚ) :
    ℚ × ℚ :=
  let irisCenter := getCenter irisLandmarks width height
  let eyePoints := eyeLandmarks.map (scalePoint width height)
  let minX := listMin (eyePoints.map Point.x)
  let maxX := listMax (eyePoints.map Point.x)
  let minY := listMin (eyePoints.map Point.y)
  let maxY := listMax (eyePoints.map Point.y)
  let eyeWidth := maxX - minX
  let eyeHeight := maxY - minY
  if 0 < eyeWidth ∧ 0 < eyeHeight then
    ((irisCenter.x - minX) / eyeWidth, (irisCenter.y - minY) / eyeHeight)
  else (1 / 2, 1 / 2)

/-- Gaze ratio as the specification words it: the iris center is the
centroid of the 4 scaled iris points, the bounding box comes from the
scaled eye points, and a degenerate box (`eyeWidth ≤ 0` or
`eyeHeight ≤ 0`) returns the neutral `(0.5, 0.5)`. -/
def specGazeRatio (irisLandmarks eyeLandmarks : List Point) (width height : ℚ) :
    ℚ × ℚ :=
  let irisCenter := centroid (irisLandmarks.map (scalePoint width height))
  let eyePoints := eyeLandmarks.map (scalePoint width height)
  let minX := listMin (eyePoints.map Point.x)
  let maxX := listMax (eyePoints.map Point.x)
  let minY := listMin (eyePoints.map Point.y)
  let maxY := listMax (eyePoints.map Point.y)
  let eyeWidth := maxX - minX
  let eyeHeight := maxY - minY
  if eyeWidth ≤ 0 ∨ eyeHeight ≤ 0 then (1 / 2, 1 / 2)
  else ((irisCenter.x - minX) / eyeWidth, (irisCenter.y - minY) / eyeHeight)

/-- One call of `detectBlink(ear)` from the source, acting on the
`blinkFrameCounter` field: below the threshold the counter is incremented
and no event fires; at or above it a blink event fires exactly when the
counter had reached `BLINK_CONSEC_FRAMES`, and the counter resets to 0. -/
def detectBlink (ear : ℚ) (blinkFrameCounter : ℕ) : Bool × ℕ :=
  if ear < EAR_THRESHOLD then (false, blinkFrameCounter + 1)
  else if BLINK_CONSEC_FRAMES ≤ blinkFrameCounter then (true, 0)
  else (false, 0)

/-- Feeding a list of EAR samples through `detectBlink` in order, starting
from the given counter, and recording the per-frame event flag. -/
def runBlinkDetector : ℕ → List ℚ → List Bool
  | _, [] => []
  | c, e :: rest =>
    (detectBlink e c).1 :: runBlinkDetector (detectBlink e c).2 rest

/-- A sample is sub-threshold when strictly below the blink threshold. -/
def isBelow (e : ℚ) : Bool := e < EAR_THRESHOLD

/-- Lengths of the maximal runs of consecutive `true` entries of a boolean
trace, in order of occurrence. -/
def runLengths : List Bool → List ℕ
  | [] => []
  | false :: rest => runLengths rest
  | true :: rest => ((rest.takeWhile id).length + 1) :: runLengths (rest.dropWhile id)
termination_by l => l.length
decreasing_by
  · simp
  · have := List.IsSuffix.length_le (List.dropWhile_suffix (l := rest) id)
    simp only [List.length_cons]
    omega

/-- Lengths of the maximal runs of consecutive `true` entries that are
terminated by a later `false` entry; a run still open at the end of the
trace is omitted. -/
def terminatedRunLengths : List Bool → List ℕ
  | [] => []
  | false :: rest => terminatedRunLengths rest
  | true :: rest =>
    if (rest.dropWhile id).isEmpty then []
    else ((rest.takeWhile id).length + 1) :: terminatedRunLengths (rest.dropWhile id)
termination_by l => l.length
decreasing_by
  · simp
  · have := List.IsSuffix.length_le (List.dropWhile_suffix (l := rest) id)
    simp only [List.length_cons]
    omega

/-- The count the claim speaks about: number of maximal sub-threshold runs
of length at least `BLINK_CONSEC_FRAMES` in an EAR sample sequence. -/
def belowRunCount (samples : List ℚ) : ℕ :=
  (runLengths (samples.map isBelow)).countP (fun n => BLINK_CONSEC_FRAMES ≤ n)

/-- Number of maximal sub-threshold runs of length at least
`BLINK_CONSEC_FRAMES` that are terminated by a later at-or-above-threshold
sample. -/
def terminatedRunCount (samples : List ℚ) : ℕ :=
  (terminatedRunLengths (samples.map isBelow)).countP (fun n => BLINK_CONSEC_FRAMES ≤ n)

/-- The `history.push(value); if (history.length > maxLen) history.shift();`
pattern shared by the EAR, gaze and pupil histories. -/
def pushHistory {α : Type} (maxLen : ℕ) (history : List α) (value : α) : List α :=
  let pushed := history ++ [value]
  if maxLen < pushed.length then pushed.tail else pushed

/-- The mutable fields of the `IrisTracker` class that the blink counter
and the gesture-phase state machine touch.  `phaseCompleted` is split into
its four slots; the gaze sustain counters are kept as integers so that the
`Math.max(0, x - 2)` floor is modelled literally. -/
structure TrackerState where
  currentPhase : ℤ
  phaseCompleted0 : Bool
  phaseCompleted1 : Bool
  phaseCompleted2 : Bool
  phaseCompleted3 : Bool
  leftGazeFrames : ℤ
  rightGazeFrames : ℤ
  blinkCount : ℕ
  blinkFrameCounter : ℕ
deriving DecidableEq, Repr

/-- The constructor's initial values of the modelled fields. -/
def initState : TrackerState :=
  { currentPhase := 0
    phaseCompleted0 := false
    phaseCompleted1 := false
    phaseCompleted2 := false
    phaseCompleted3 := false
    leftGazeFrames := 0
    rightGazeFrames := 0
    blinkCount := 0
    blinkFrameCounter := 0 }

/-- `detectLeftGaze(gazePoint)` from the source, as a transition on the
modelled state fed with the smoothed horizontal gaze ratio; the boolean is
the phase-trigger (flash) event.  `advanceToPhase(1)` contributes the
`currentPhase := 1` assignment (its remaining body is DOM choreography). -/
def detectLeftGaze (s : TrackerState) (gazeH : ℚ) : TrackerState × Bool :=
  if s.currentPhase ≠ 0 ∨ s.phaseCompleted0 = true then (s, false)
  else if leftGazeThreshold < gazeH then
    if leftGazeRequired ≤ s.leftGazeFrames + 1 then
      ({ s with phaseCompleted0 := true, leftGazeFrames := 0, currentPhase := 1 }, true)
    else ({ s with leftGazeFrames := s.leftGazeFrames + 1 }, false)
  else if 0 < s.leftGazeFrames then
    ({ s with leftGazeFrames := max 0 (s.leftGazeFrames - 2) }, false)
  else (s, false)

/-- `detectRightGaze(gazePoint)` from the source (see `detectLeftGaze`);
`advanceToPhase(2)` contributes the `currentPhase := 2` assignment. -/
def detectRightGaze (s : TrackerState) (gazeH : ℚ) : TrackerState × Bool :=
  if s.currentPhase ≠ 1 ∨ s.phaseCompleted1 = true then (s, false)
  else if gazeH < rightGazeThreshold then
    if rightGazeRequired ≤ s.rightGazeFrames + 1 then
      ({ s with phaseCompleted1 := true, rightGazeFrames := 0, currentPhase := 2 }, true)
    else ({ s with rightGazeFrames := s.rightGazeFrames + 1 }, false)
  else if 0 < s.rightGazeFrames then
    ({ s with rightGazeFrames := max 0 (s.rightGazeFrames - 2) }, false)
  else (s, false)

/-- The two phase-detector calls a frame makes in `processEyeTracking`
(lines 260-261), in source order, with the frame's smoothed horizontal
gaze ratio; the booleans are the left and right trigger events. -/
def gazeFrameStep (s : TrackerState) (gazeH : ℚ) : TrackerState × Bool × Bool :=
  let l := detectLeftGaze s gazeH
  let r := detectRightGaze l.1 gazeH
  (r.1, l.2, r.2)

/-- Feeding a list of smoothed horizontal gaze ratios through
`detectLeftGaze` frame by frame, recording the trigger flags. -/
def runLeftGaze : TrackerState → List ℚ → TrackerState × List Bool
  | s, [] => (s, [])
  | s, g :: rest =>
    ((runLeftGaze (detectLeftGaze s g).1 rest).1,
     (detectLeftGaze s g).2 :: (runLeftGaze (detectLeftGaze s g).1 rest).2)

/-- Scaling by `(width, height)` commutes with the arithmetic mean:
`getCenter` (mean first, scale second) agrees with the centroid of the
scaled points. -/
lemma getCenter_eq_centroid_scaled (lms : List Point) (width height : ℚ) :
    getCenter lms width height = centroid (lms.map (scalePoint width height)) := by
  simp only [getCenter, centroid, scalePoint, List.map_map, Function.comp_def,
    List.length_map]
  rw [Point.mk.injEq]
  constructor <;> rw [List.sum_map_mul_right, mul_div_right_comm]

/-- C10: `getCenter`, which averages the normalized coordinates first and
scales the mean, returns exactly the centroid of the scaled points for
every non-empty landmark list: scaling commutes with the mean, so the
code's iris-center computation coincides with the spec's centroid of the
scaled iris points. -/
theorem c10_getCenter_is_scaled_centroid (lms : List Point) (width height : ℚ)
    (hne : lms ≠ []) :
    getCenter lms width height = centroid (lms.map (scalePoint width height)) :=
  getCenter_eq_centroid_scaled lms width height

/-- Witness for C10 at a concrete two-point list. -/
theorem c10_getCenter_is_scaled_centroid_witness :
    getCenter [⟨1, 2⟩, ⟨3, 4⟩] 10 20
      = centroid ([⟨1, 2⟩, ⟨3, 4⟩].map (scalePoint 10 20)) :=
  c10_getCenter_is_scaled_centroid [⟨1, 2⟩, ⟨3, 4⟩] 10 20 (by simp)

/-- C4: for every iris point set, eye point set and positive frame
dimensions, `calculateGazeRatio` agrees with the specification's
description: a degenerate eye bounding box (`eyeWidth ≤ 0` or
`eyeHeight ≤ 0`) yields exactly the neutral `(0.5, 0.5)` and never fails
the frame, and otherwise the result is
`((irisCenter.x - minX) / eyeWidth, (irisCenter.y - minY) / eyeHeight)`
with the iris center the centroid of the scaled iris points and
`minX`/`minY` the componentwise minima of the scaled eye points. -/
theorem c4_gazeRatio_matches_spec (iris eye : List Point) (width height : ℚ)
    (hw : 0 < width) (hh : 0 < height) :
    calculateGazeRatio iris eye width height = specGazeRatio iris eye width height := by
  simp only [calculateGazeRatio, specGazeRatio, getCenter_eq_centroid_scaled]
  split_ifs with h1 h2 h3
  · rcases h2 with h | h
    · exact absurd h1.1 (not_lt.mpr h)
    · exact absurd h1.2 (not_lt.mpr h)
  · rfl
  · rfl
  · push_neg at h3
    exact absurd h3 h1

/-- Witness for C4 at concrete 4- and 6-point inputs. -/
theorem c4_gazeRatio_matches_spec_witness :
    calculateGazeRatio [⟨4, 4⟩, ⟨5, 4⟩, ⟨4, 5⟩, ⟨5, 5⟩]
        [⟨0, 0⟩, ⟨3, 1⟩, ⟨6, 1⟩, ⟨9, 0⟩, ⟨6, 7⟩, ⟨3, 7⟩] 2 3
      = specGazeRatio [⟨4, 4⟩, ⟨5, 4⟩, ⟨4, 5⟩, ⟨5, 5⟩]
          [⟨0, 0⟩, ⟨3, 1⟩, ⟨6, 1⟩, ⟨9, 0⟩, ⟨6, 7⟩, ⟨3, 7⟩] 2 3 :=
  c4_gazeRatio_matches_spec _ _ 2 3 (by norm_num) (by norm_num)

/-- C5: for every six-point eye input, `calculateEAR` equals the closed
form `(v1 + v2) / (2 * h)` where each landmark is first scaled by
`(width, height)`, `v1` is the distance between scaled points 1 and 5,
`v2` between points 2 and 4, and `h` between points 0 and 3. -/
theorem c5_calculateEAR_closed_form (sq : ℚ → ℚ) (p0 p1 p2 p3 p4 p5 : Point)
    (width height : ℚ) :
    calculateEAR sq [p0, p1, p2, p3, p4, p5] width height
      = (distance sq (scalePoint width height p1) (scalePoint width height p5)
          + distance sq (scalePoint width height p2) (scalePoint width height p4))
        / (2 * distance sq (scalePoint width height p0) (scalePoint width height p3)) :=
  rfl

/-- C8: `calculateEAR` divides without a guard.  On a six-point input whose
scaled points 0 and 3 coincide, the IEEE-754 semantics of the source's
division produce a non-finite value: `+Infinity` when `v1 + v2 > 0` and
`NaN` when `v1 + v2 = 0`; on every input with a nonzero corner distance the
same unguarded division returns exactly the finite quotient (no clamping,
no error).  The hypotheses state the two facts used about `Math.sqrt`:
`sqrt 0 = 0` and positivity on positive arguments. -/
theorem c8_ear_division_unguarded (sq : ℚ → ℚ) (h0 : sq 0 = 0)
    (hpos : ∀ q : ℚ, 0 < q → 0 < sq q) :
    calculateEARjs sq [⟨0, 0⟩, ⟨1, 0⟩, ⟨2, 0⟩, ⟨0, 0⟩, ⟨1, 1⟩, ⟨2, 1⟩] 1 1
        = JSNumber.posInf
    ∧ calculateEARjs sq [⟨0, 0⟩, ⟨0, 0⟩, ⟨0, 0⟩, ⟨0, 0⟩, ⟨0, 0⟩, ⟨0, 0⟩] 1 1
        = JSNumber.nan
    ∧ (∀ (e0 e1 e2 e3 e4 e5 : Point) (width height : ℚ),
        distance sq (scalePoint width height e0) (scalePoint width height e3) ≠ 0 →
        calculateEARjs sq [e0, e1, e2, e3, e4, e5] width height
          = JSNumber.finite (calculateEAR sq [e0, e1, e2, e3, e4, e5] width height)) := by
  refine ⟨?_, ?_, ?_⟩
  · have h2 : 0 < sq 2 := hpos 2 (by norm_num)
    simp only [calculateEARjs, jsDiv, distance, scalePoint, List.map_cons, List.map_nil,
      List.getD]
    norm_num [h0]
    intro hzero
    exact absurd h2 (not_lt.mpr hzero)
  · simp only [calculateEARjs, jsDiv, distance, scalePoint, List.map_cons, List.map_nil,
      List.getD]
    norm_num [h0]
  · intro e0 e1 e2 e3 e4 e5 width height hne
    simp only [calculateEARjs, calculateEAR, jsDiv, List.map_cons, List.map_nil,
      List.getD]
    rw [if_neg (by
      intro hc
      exact hne (by
        have := mul_eq_zero.mp hc
        simpa using this))]

/-- Witness for C8 with a concrete square-root stand-in that is zero at
zero and positive on positives. -/
theorem c8_ear_division_unguarded_witness :
    calculateEARjs (fun q => if 0 < q then 1 else 0)
        [⟨0, 0⟩, ⟨1, 0⟩, ⟨2, 0⟩, ⟨0, 0⟩, ⟨1, 1⟩, ⟨2, 1⟩] 1 1 = JSNumber.posInf
    ∧ calculateEARjs (fun q => if 0 < q then 1 else 0)
        [⟨0, 0⟩, ⟨0, 0⟩, ⟨0, 0⟩, ⟨0, 0⟩, ⟨0, 0⟩, ⟨0, 0⟩] 1 1 = JSNumber.nan := by
  have h := c8_ear_division_unguarded (fun q => if 0 < q then 1 else 0)
    (by norm_num) (fun q hq => by simp [hq])
  exact ⟨h.1, h.2.1⟩

/-- The list dropped while a predicate holds is no longer than the
original list. -/
lemma length_dropWhile_le {α : Type} (p : α → Bool) (l : List α) :
    (l.dropWhile p).length ≤ l.length :=
  List.IsSuffix.length_le (List.dropWhile_suffix p)

/-- Taking the `true`-prefix of `replicate c true ++ false :: l` yields the
replicated block. -/
lemma takeWhile_replicate_true_false (c : ℕ) (l : List Bool) :
    ((List.replicate c true ++ false :: l).takeWhile id) = List.replicate c true := by
  induction c with
  | zero => simp [List.takeWhile_cons]
  | succ n ih => simp [List.replicate_succ, List.takeWhile_cons, ih]

/-- Dropping the `true`-prefix of `replicate c true ++ false :: l` leaves
`false :: l`. -/
lemma dropWhile_replicate_true_false (c : ℕ) (l : List Bool) :
    ((List.replicate c true ++ false :: l).dropWhile id) = false :: l := by
  induction c with
  | zero => simp [List.dropWhile_cons]
  | succ n ih => simp [List.replicate_succ, List.dropWhile_cons, ih]

/-- Dropping the `true`-prefix of a pure `true` block leaves nothing. -/
lemma dropWhile_replicate_true (c : ℕ) :
    ((List.replicate c true).dropWhile id) = [] := by
  induction c with
  | zero => simp
  | succ n ih => simp [List.replicate_succ, List.dropWhile_cons, ih]

/-- A trailing run that is never terminated contributes nothing. -/
lemma terminatedRunLengths_replicate (c : ℕ) :
    terminatedRunLengths (List.replicate c true) = [] := by
  cases c with
  | zero => simp [terminatedRunLengths]
  | succ n =>
    rw [List.replicate_succ, terminatedRunLengths]
    simp [dropWhile_replicate_true]

/-- Unfolding `terminatedRunLengths` across a terminated block of `c`
`true` entries. -/
lemma terminatedRunLengths_replicate_false (c : ℕ) (l : List Bool) :
    terminatedRunLengths (List.replicate c true ++ false :: l)
      = (if c = 0 then [] else [c]) ++ terminatedRunLengths l := by
  cases c with
  | zero =>
    rw [List.replicate, List.nil_append, if_pos rfl, List.nil_append, terminatedRunLengths]
  | succ n =>
    rw [List.replicate_succ, List.cons_append, terminatedRunLengths]
    rw [takeWhile_replicate_true_false, dropWhile_replicate_true_false]
    simp only [List.isEmpty_cons, List.length_replicate, if_neg (Nat.succ_ne_zero n),
      Bool.false_eq_true, if_false]
    rw [terminatedRunLengths]
    simp

/-- The blink detector, run from an arbitrary counter value, emits exactly
one event per terminated sub-threshold run of length at least
`BLINK_CONSEC_FRAMES`, where the pending counter is accounted as a block
of `c` sub-threshold frames already seen. -/
lemma runBlinkDetector_count (samples : List ℚ) : ∀ c : ℕ,
    (runBlinkDetector c samples).count true
      = (terminatedRunLengths (List.replicate c true ++ samples.map isBelow)).countP
          (fun n => BLINK_CONSEC_FRAMES ≤ n) := by
  induction samples with
  | nil =>
    intro c
    simp [runBlinkDetector, terminatedRunLengths_replicate]
  | cons e rest ih =>
    intro c
    by_cases hb : e < EAR_THRESHOLD
    · have hstep : detectBlink e c = (false, c + 1) := by rw [detectBlink, if_pos hb]
      rw [runBlinkDetector, hstep]
      have hmap : (e :: rest).map isBelow = true :: rest.map isBelow := by
        simp [isBelow, hb]
      rw [hmap, List.count_cons]
      have : List.replicate c true ++ true :: rest.map isBelow
          = List.replicate (c + 1) true ++ rest.map isBelow := by
        rw [List.replicate_succ' (n := c)]
        simp
      simp [this, ih (c + 1)]
    · have hstep : detectBlink e c
          = (if BLINK_CONSEC_FRAMES ≤ c then (true, 0) else (false, 0)) := by
        rw [detectBlink, if_neg hb]
      have hmap : (e :: rest).map isBelow = false :: rest.map isBelow := by
        simp [isBelow, hb]
      rw [runBlinkDetector, hstep, hmap, terminatedRunLengths_replicate_false]
      by_cases hc : BLINK_CONSEC_FRAMES ≤ c
      · have hc0 : ¬ c = 0 := by
          intro h
          rw [h] at hc
          exact absurd hc (by norm_num [BLINK_CONSEC_FRAMES])
        rw [if_pos hc, if_neg hc0, List.count_cons]
        have := ih 0
        simp only [List.replicate, List.nil_append] at this
        simp [this, List.countP_cons, hc]
      · rw [if_neg hc]
        rcases Nat.eq_zero_or_pos c with hc0 | hc0
        · rw [if_pos hc0, List.count_cons]
          have := ih 0
          simp only [List.replicate, List.nil_append] at this
          simp [this]
        · rw [if_neg (Nat.pos_iff_ne_zero.mp hc0), List.count_cons]
          have := ih 0
          simp only [List.replicate, List.nil_append] at this
          simp [this, List.countP_cons, hc]

/-- C1 counterexample: the claim's equality fails as universally stated.
For the sequence `[0.1, 0.1]` — a maximal sub-threshold run of length 2
that reaches the end of the input without a recovery frame — the detector
emits 0 events while the claimed count of maximal runs of length at least
2 is 1. -/
theorem c1_counterexample :
    (runBlinkDetector 0 [1/10, 1/10]).count true ≠ belowRunCount [1/10, 1/10]
    ∧ (runBlinkDetector 0 [1/10, 1/10]).count true = 0
    ∧ belowRunCount [1/10, 1/10] = 1 := by
  have e1 : runBlinkDetector 0 [1/10, 1/10] = [false, false] := by
    norm_num [runBlinkDetector, detectBlink, EAR_THRESHOLD]
  have e2 : belowRunCount [1/10, 1/10] = 1 := by
    norm_num [belowRunCount, isBelow, EAR_THRESHOLD, BLINK_CONSEC_FRAMES, runLengths,
      List.takeWhile_cons, List.countP_cons]
  rw [e1, e2]
  norm_num

/-- C1 (amended): the number of blink events emitted equals the number of
maximal sub-threshold runs of length at least 2 that are terminated by a
later at-or-above-threshold frame (a run still open when the input ends has
not yet been counted); each event is emitted on the first frame at or above
the threshold after such a run.  In particular
`[0.3,0.3,0.1,0.1,0.1,0.3,0.3]` yields exactly one event, on the frame
where EAR returns to 0.3, and `[0.3,0.1,0.3]` yields none. -/
theorem c1_blink_count_terminated_runs :
    (∀ samples : List ℚ,
      (runBlinkDetector 0 samples).count true = terminatedRunCount samples)
    ∧ runBlinkDetector 0 [3/10, 3/10, 1/10, 1/10, 1/10, 3/10, 3/10]
        = [false, false, false, false, false, true, false]
    ∧ (runBlinkDetector 0 [3/10, 1/10, 3/10]).count true = 0 := by
  refine ⟨?_, ?_, ?_⟩
  · intro samples
    have := runBlinkDetector_count samples 0
    simpa [terminatedRunCount, List.replicate] using this
  · norm_num [runBlinkDetector, detectBlink, EAR_THRESHOLD, BLINK_CONSEC_FRAMES]
  · norm_num [runBlinkDetector, detectBlink, EAR_THRESHOLD, BLINK_CONSEC_FRAMES,
      List.count_cons]

/-- Folding `pushHistory` over a whole input from an empty buffer keeps
exactly the last `maxLen` values: the buffer is the input with its oldest
overflow dropped. -/
lemma foldl_pushHistory {α : Type} (maxLen : ℕ) (xs : List α) :
    xs.foldl (pushHistory maxLen) [] = xs.drop (xs.length - maxLen) := by
  induction xs using List.reverseRecOn with
  | nil => simp
  | append_singleton xs v ih =>
    rw [List.foldl_append, List.foldl_cons, List.foldl_nil, ih]
    have hlen : (xs.drop (xs.length - maxLen)).length = min xs.length maxLen := by
      rw [List.length_drop]
      omega
    by_cases hC : maxLen ≤ xs.length
    · have hcond : maxLen < (xs.drop (xs.length - maxLen) ++ [v]).length := by
        rw [List.length_append, hlen]
        simp
        omega
      rw [pushHistory]
      simp only [hcond, if_pos]
      rcases Nat.eq_zero_or_pos maxLen with h0 | h0
      · subst h0
        simp
      · have hne : 1 ≤ (xs.drop (xs.length - maxLen)).length := by omega
        rw [← List.drop_one, List.drop_append_of_le_length hne, List.drop_drop,
          List.length_append, List.length_singleton,
          List.drop_append_of_le_length (by omega)]
        congr 2
        omega
    · push_neg at hC
      have hcond : ¬ maxLen < (xs.drop (xs.length - maxLen) ++ [v]).length := by
        rw [List.length_append, hlen]
        simp
        omega
      rw [pushHistory]
      simp only [hcond, if_neg, if_false]
      rw [Nat.sub_eq_zero_of_le hC.le, List.drop_zero,
        Nat.sub_eq_zero_of_le (by simp; omega), List.drop_zero]

/-- C7: for each of the bounded history buffers (EAR capacity 100, gaze
ratio capacity 5, pupil diameter capacity 30), pushing more than `C`
values into an initially empty buffer leaves size exactly `C` and contents
equal to the last `C` pushed values in push order (oldest evicted first);
pushing at most `C` values keeps all of them in push order. -/
theorem c7_history_ring_buffer (α : Type) (C : ℕ)
    (hC : C = maxEarHistory ∨ C = maxGazeHistory ∨ C = maxPupilHistory)
    (xs : List α) :
    (C < xs.length →
      (xs.foldl (pushHistory C) []).length = C
      ∧ xs.foldl (pushHistory C) [] = xs.drop (xs.length - C))
    ∧ (xs.length ≤ C → xs.foldl (pushHistory C) [] = xs) := by
  refine ⟨fun hlt => ⟨?_, foldl_pushHistory C xs⟩, fun hle => ?_⟩
  · rw [foldl_pushHistory, List.length_drop]
    omega
  · rw [foldl_pushHistory, Nat.sub_eq_zero_of_le hle, List.drop_zero]

/-- Witness for C7: seven values through the gaze buffer of capacity 5. -/
theorem c7_history_ring_buffer_witness :
    List.foldl (pushHistory 5) ([] : List ℚ) [1, 2, 3, 4, 5, 6, 7]
      = [3, 4, 5, 6, 7]
    ∧ (List.foldl (pushHistory 5) ([] : List ℚ) [1, 2, 3, 4, 5, 6, 7]).length = 5 := by
  have h := (c7_history_ring_buffer ℚ 5 (Or.inr (Or.inl rfl))
    [1, 2, 3, 4, 5, 6, 7]).1 (by norm_num)
  exact ⟨by rw [h.2]; norm_num, h.1⟩

/-- One qualifying frame in phase 0 below the sustain requirement just
increments the counter and fires nothing. -/
lemma detectLeftGaze_qual_step (c : ℤ) (g : ℚ) (hq : leftGazeThreshold < g)
    (hc : c + 1 < leftGazeRequired) :
    detectLeftGaze { initState with leftGazeFrames := c } g
      = ({ initState with leftGazeFrames := c + 1 }, false) := by
  rw [detectLeftGaze, if_neg (by simp [initState]), if_pos hq, if_neg (not_le.mpr hc)]

/-- The qualifying frame that reaches the requirement fires the trigger,
completes phase 0, zeroes the counter and advances to phase 1. -/
lemma detectLeftGaze_fire_step (g : ℚ) (hq : leftGazeThreshold < g) :
    detectLeftGaze { initState with leftGazeFrames := 9 } g
      = ({ initState with currentPhase := 1, phaseCompleted0 := true }, true) := by
  rw [detectLeftGaze, if_neg (by simp [initState]), if_pos hq,
    if_pos (by norm_num [leftGazeRequired])]
  simp [initState]

/-- `runLeftGaze` distributes over list append. -/
lemma runLeftGaze_append (l₁ : List ℚ) : ∀ (s : TrackerState) (l₂ : List ℚ),
    runLeftGaze s (l₁ ++ l₂)
      = ((runLeftGaze (runLeftGaze s l₁).1 l₂).1,
         (runLeftGaze s l₁).2 ++ (runLeftGaze (runLeftGaze s l₁).1 l₂).2) := by
  induction l₁ with
  | nil => intro s l₂; simp [runLeftGaze]
  | cons g rest ih => intro s l₂; simp [runLeftGaze, ih]

/-- Feeding `n` qualifying frames in phase 0, starting from counter `c`
with `c + n` short of the requirement, accumulates the counter to `c + n`
and fires nothing. -/
lemma runLeftGaze_replicate_qual (g : ℚ) (hq : leftGazeThreshold < g) :
    ∀ (n : ℕ) (c : ℤ), c + n < 10 →
      runLeftGaze { initState with leftGazeFrames := c } (List.replicate n g)
        = ({ initState with leftGazeFrames := c + n }, List.replicate n false) := by
  intro n
  induction n with
  | zero => intro c _; simp [runLeftGaze]
  | succ m ih =>
    intro c hlt
    rw [List.replicate_succ]
    have hc1 : c + 1 < leftGazeRequired := by
      rw [leftGazeRequired]
      push_cast at hlt
      omega
    have hrec := ih (c + 1) (by push_cast at hlt ⊢; omega)
    simp only [runLeftGaze, detectLeftGaze_qual_step c g hq hc1, hrec]
    refine Prod.ext ?_ ?_
    · simp only [TrackerState.mk.injEq]
      push_cast
      norm_num
      ring
    · simp [List.replicate_succ]

/-- C2: while phase LookLeft is active, uncompleted, counter 0, a constant
gaze ratio strictly above `leftGazeThreshold` fires the trigger, completes
phase 0, resets the counter and advances to phase 1 exactly on the 10th
consecutive qualifying frame — for every shorter run nothing fires and the
state only carries the accumulated counter — and a frame exactly at the
threshold does not qualify (strict comparison). -/
theorem c2_lookLeft_fires_on_tenth_frame (g : ℚ) (hq : leftGazeThreshold < g) :
    (∀ n : ℕ, n < 10 →
      runLeftGaze initState (List.replicate n g)
        = ({ initState with leftGazeFrames := (n : ℤ) }, List.replicate n false))
    ∧ runLeftGaze initState (List.replicate 10 g)
        = ({ initState with currentPhase := 1, phaseCompleted0 := true },
           List.replicate 9 false ++ [true])
    ∧ detectLeftGaze initState leftGazeThreshold = (initState, false) := by
  refine ⟨?_, ?_, ?_⟩
  · intro n hn
    have h := runLeftGaze_replicate_qual g hq n 0 (by omega)
    simpa [initState] using h
  · have hsplit : List.replicate 10 g = List.replicate 9 g ++ [g] := by
      simp [← List.replicate_succ']
    have h9 : runLeftGaze initState (List.replicate 9 g)
        = ({ initState with leftGazeFrames := 9 }, List.replicate 9 false) := by
      simpa [initState] using runLeftGaze_replicate_qual g hq 9 0 (by norm_num)
    rw [hsplit, runLeftGaze_append, h9]
    simp only [runLeftGaze, detectLeftGaze_fire_step g hq]
  · rw [detectLeftGaze, if_neg (by simp [initState]), if_neg (lt_irrefl leftGazeThreshold),
      if_neg (by simp [initState])]

/-- Witness for C2 at the spec's concrete ratio `h = 0.7`. -/
theorem c2_lookLeft_fires_on_tenth_frame_witness :
    runLeftGaze initState (List.replicate 10 (7/10 : ℚ))
      = ({ initState with currentPhase := 1, phaseCompleted0 := true },
         List.replicate 9 false ++ [true])
    ∧ runLeftGaze initState (List.replicate 9 (7/10 : ℚ))
      = ({ initState with leftGazeFrames := ((9 : ℕ) : ℤ) }, List.replicate 9 false) := by
  have h := c2_lookLeft_fires_on_tenth_frame (7/10)
    (by rw [leftGazeThreshold]; norm_num)
  exact ⟨h.2.1, h.1 9 (by norm_num)⟩

/-- C3: in the active, uncompleted phase, a frame failing the phase's gaze
predicate decrements the sustain counter by exactly 2 with a floor at 0 (a
counter at 0 stays 0) and never resets a counter above 2 to 0 — for both
directional detectors — and consequently 9 qualifying frames, 1
non-qualifying frame (counter 9 to 7) and 3 further qualifying frames
complete the LookLeft phase in 13 frames total, with the trigger on the
13th. -/
theorem c3_decay_on_break :
    (∀ (s : TrackerState) (g : ℚ), s.currentPhase = 0 → s.phaseCompleted0 = false →
      ¬ leftGazeThreshold < g → 0 ≤ s.leftGazeFrames →
        detectLeftGaze s g
          = ({ s with leftGazeFrames := max 0 (s.leftGazeFrames - 2) }, false)
        ∧ (2 < s.leftGazeFrames → 0 < max 0 (s.leftGazeFrames - 2)))
    ∧ (∀ (s : TrackerState) (g : ℚ), s.currentPhase = 1 → s.phaseCompleted1 = false →
      ¬ g < rightGazeThreshold → 0 ≤ s.rightGazeFrames →
        detectRightGaze s g
          = ({ s with rightGazeFrames := max 0 (s.rightGazeFrames - 2) }, false)
        ∧ (2 < s.rightGazeFrames → 0 < max 0 (s.rightGazeFrames - 2)))
    ∧ (∀ gq gn : ℚ, leftGazeThreshold < gq → ¬ leftGazeThreshold < gn →
        runLeftGaze initState (List.replicate 9 gq ++ [gn])
          = ({ initState with leftGazeFrames := 7 }, List.replicate 10 false)
        ∧ runLeftGaze initState (List.replicate 9 gq ++ gn :: List.replicate 3 gq)
          = ({ initState with currentPhase := 1, phaseCompleted0 := true },
             List.replicate 12 false ++ [true])) := by
  refine ⟨?_, ?_, ?_⟩
  · intro s g hph hcomp hng hnn
    refine ⟨?_, fun h2 => by omega⟩
    rw [detectLeftGaze, if_neg (by simp [hph, hcomp]), if_neg hng]
    by_cases h0 : 0 < s.leftGazeFrames
    · rw [if_pos h0]
    · rw [if_neg h0]
      have hz : s.leftGazeFrames = 0 := le_antisymm (not_lt.mp h0) hnn
      have hmax : max 0 (s.leftGazeFrames - 2) = s.leftGazeFrames := by omega
      rw [hmax]
  · intro s g hph hcomp hng hnn
    refine ⟨?_, fun h2 => by omega⟩
    rw [detectRightGaze, if_neg (by simp [hph, hcomp]), if_neg hng]
    by_cases h0 : 0 < s.rightGazeFrames
    · rw [if_pos h0]
    · rw [if_neg h0]
      have hz : s.rightGazeFrames = 0 := le_antisymm (not_lt.mp h0) hnn
      have hmax : max 0 (s.rightGazeFrames - 2) = s.rightGazeFrames := by omega
      rw [hmax]
  · intro gq gn hq hn
    have h9 : runLeftGaze initState (List.replicate 9 gq)
        = ({ initState with leftGazeFrames := 9 }, List.replicate 9 false) := by
      simpa [initState] using runLeftGaze_replicate_qual gq hq 9 0 (by norm_num)
    have hdrop : detectLeftGaze { initState with leftGazeFrames := 9 } gn
        = ({ initState with leftGazeFrames := 7 }, false) := by
      rw [detectLeftGaze, if_neg (by simp [initState]), if_neg hn,
        if_pos (by norm_num)]
      norm_num
    have h10 : runLeftGaze initState (List.replicate 9 gq ++ [gn])
        = ({ initState with leftGazeFrames := 7 }, List.replicate 10 false) := by
      rw [runLeftGaze_append, h9]
      simp only [runLeftGaze, hdrop]
      refine Prod.ext rfl ?_
      simp [List.replicate_succ' (n := 9)]
    refine ⟨h10, ?_⟩
    have hsplit : List.replicate 9 gq ++ gn :: List.replicate 3 gq
        = (List.replicate 9 gq ++ [gn]) ++ (List.replicate 2 gq ++ [gq]) := by
      simp [List.replicate_succ, List.replicate_succ' (n := 2)]
    rw [hsplit, runLeftGaze_append, h10, runLeftGaze_append]
    have h2q : runLeftGaze { initState with leftGazeFrames := 7 } (List.replicate 2 gq)
        = ({ initState with leftGazeFrames := 9 }, List.replicate 2 false) := by
      have := runLeftGaze_replicate_qual gq hq 2 7 (by norm_num)
      simpa using this
    rw [h2q]
    simp only [runLeftGaze, detectLeftGaze_fire_step gq hq]
    refine Prod.ext rfl ?_
    simp [List.replicate_succ' (n := 11), List.replicate_succ' (n := 10),
      List.replicate_succ' (n := 9)]

/-- Witness for C3: the 13-frame dropout scenario at the concrete ratios
`0.7` (qualifying) and `0.5` (non-qualifying). -/
theorem c3_decay_on_break_witness :
    runLeftGaze initState
        (List.replicate 9 (7/10 : ℚ) ++ (1/2 : ℚ) :: List.replicate 3 (7/10 : ℚ))
      = ({ initState with currentPhase := 1, phaseCompleted0 := true },
         List.replicate 12 false ++ [true]) :=
  (c3_decay_on_break.2.2 (7/10) (1/2)
    (by rw [leftGazeThreshold]; norm_num)
    (by rw [leftGazeThreshold]; norm_num)).2

/-- `detectLeftGaze` never touches the completion flags of the other
phases. -/
lemma detectLeftGaze_other_flags (s : TrackerState) (g : ℚ) :
    (detectLeftGaze s g).1.phaseCompleted1 = s.phaseCompleted1
    ∧ (detectLeftGaze s g).1.phaseCompleted2 = s.phaseCompleted2
    ∧ (detectLeftGaze s g).1.phaseCompleted3 = s.phaseCompleted3 := by
  rw [detectLeftGaze]
  split_ifs <;> exact ⟨rfl, rfl, rfl⟩

/-- `detectRightGaze` never touches the completion flags of the other
phases. -/
lemma detectRightGaze_other_flags (s : TrackerState) (g : ℚ) :
    (detectRightGaze s g).1.phaseCompleted0 = s.phaseCompleted0
    ∧ (detectRightGaze s g).1.phaseCompleted2 = s.phaseCompleted2
    ∧ (detectRightGaze s g).1.phaseCompleted3 = s.phaseCompleted3 := by
  rw [detectRightGaze]
  split_ifs <;> exact ⟨rfl, rfl, rfl⟩

/-- A detector call only ever sets its own completion flag to `true`. -/
lemma detectGaze_own_flag_mono (s : TrackerState) (g : ℚ) :
    (s.phaseCompleted0 = true → (detectLeftGaze s g).1.phaseCompleted0 = true)
    ∧ (s.phaseCompleted1 = true → (detectRightGaze s g).1.phaseCompleted1 = true) := by
  constructor
  · intro h
    rw [detectLeftGaze, if_pos (Or.inr h)]
    exact h
  · intro h
    rw [detectRightGaze, if_pos (Or.inr h)]
    exact h

/-- C6: once a phase's completion flag is true, or the phase is not the
active one, its detector is a no-op — the state (sustain counters,
completion flags, blink fields, `currentPhase`) is returned unchanged and
no trigger event fires — and across a whole frame's pair of detector calls
every completion flag, once true, stays true. -/
theorem c6_completed_phase_inert :
    (∀ (s : TrackerState) (g : ℚ), s.phaseCompleted0 = true ∨ s.currentPhase ≠ 0 →
      detectLeftGaze s g = (s, false))
    ∧ (∀ (s : TrackerState) (g : ℚ), s.phaseCompleted1 = true ∨ s.currentPhase ≠ 1 →
      detectRightGaze s g = (s, false))
    ∧ (∀ (s : TrackerState) (g : ℚ),
        (s.phaseCompleted0 = true → (gazeFrameStep s g).1.phaseCompleted0 = true)
        ∧ (s.phaseCompleted1 = true → (gazeFrameStep s g).1.phaseCompleted1 = true)
        ∧ (s.phaseCompleted2 = true → (gazeFrameStep s g).1.phaseCompleted2 = true)
        ∧ (s.phaseCompleted3 = true → (gazeFrameStep s g).1.phaseCompleted3 = true)) := by
  refine ⟨?_, ?_, ?_⟩
  · intro s g h
    rw [detectLeftGaze, if_pos (h.elim Or.inr Or.inl)]
  · intro s g h
    rw [detectRightGaze, if_pos (h.elim Or.inr Or.inl)]
  · intro s g
    refine ⟨fun h => ?_, fun h => ?_, fun h => ?_, fun h => ?_⟩
    · show (detectRightGaze (detectLeftGaze s g).1 g).1.phaseCompleted0 = true
      rw [(detectRightGaze_other_flags (detectLeftGaze s g).1 g).1]
      exact (detectGaze_own_flag_mono s g).1 h
    · show (detectRightGaze (detectLeftGaze s g).1 g).1.phaseCompleted1 = true
      exact (detectGaze_own_flag_mono (detectLeftGaze s g).1 g).2
        (by rw [(detectLeftGaze_other_flags s g).1]; exact h)
    · show (detectRightGaze (detectLeftGaze s g).1 g).1.phaseCompleted2 = true
      rw [(detectRightGaze_other_flags (detectLeftGaze s g).1 g).2.1,
        (detectLeftGaze_other_flags s g).2.1]
      exact h
    · show (detectRightGaze (detectLeftGaze s g).1 g).1.phaseCompleted3 = true
      rw [(detectRightGaze_other_flags (detectLeftGaze s g).1 g).2.2,
        (detectLeftGaze_other_flags s g).2.2]
      exact h

/-- Witness for C6: a completed LookLeft phase ignores a qualifying frame. -/
theorem c6_completed_phase_inert_witness :
    detectLeftGaze { initState with phaseCompleted0 := true } (7/10)
      = ({ initState with phaseCompleted0 := true }, false) :=
  c6_completed_phase_inert.1 { initState with phaseCompleted0 := true } (7/10)
    (Or.inl rfl)

/-- C9: after any single detector call on a state whose sustain counters
are in `[0, required)`, both counters are still in `[0, required)` — the
decay never drives a counter below 0 — and on the very call where the
counter would reach the requirement the trigger fires and the counter is
reset to 0 within that call, so a counter never persists at or above the
requirement across frames. -/
theorem c9_sustain_counter_range :
    (∀ (s : TrackerState) (g : ℚ),
      0 ≤ s.leftGazeFrames → s.leftGazeFrames < leftGazeRequired →
      0 ≤ s.rightGazeFrames → s.rightGazeFrames < rightGazeRequired →
        (0 ≤ (detectLeftGaze s g).1.leftGazeFrames
        ∧ (detectLeftGaze s g).1.leftGazeFrames < leftGazeRequired
        ∧ 0 ≤ (detectLeftGaze s g).1.rightGazeFrames
        ∧ (detectLeftGaze s g).1.rightGazeFrames < rightGazeRequired
        ∧ 0 ≤ (detectRightGaze s g).1.leftGazeFrames
        ∧ (detectRightGaze s g).1.leftGazeFrames < leftGazeRequired
        ∧ 0 ≤ (detectRightGaze s g).1.rightGazeFrames
        ∧ (detectRightGaze s g).1.rightGazeFrames < rightGazeRequired))
    ∧ (∀ (s : TrackerState) (g : ℚ), s.currentPhase = 0 → s.phaseCompleted0 = false →
        s.leftGazeFrames = leftGazeRequired - 1 → leftGazeThreshold < g →
        (detectLeftGaze s g).1.leftGazeFrames = 0 ∧ (detectLeftGaze s g).2 = true)
    ∧ (∀ (s : TrackerState) (g : ℚ), s.currentPhase = 1 → s.phaseCompleted1 = false →
        s.rightGazeFrames = rightGazeRequired - 1 → g < rightGazeThreshold →
        (detectRightGaze s g).1.rightGazeFrames = 0 ∧ (detectRightGaze s g).2 = true) := by
  refine ⟨?_, ?_, ?_⟩
  · intro s g hl0 hl1 hr0 hr1
    rw [leftGazeRequired] at hl1 ⊢
    rw [rightGazeRequired] at hr1 ⊢
    rw [detectLeftGaze, detectRightGaze]
    split_ifs <;> simp_all [leftGazeRequired, rightGazeRequired] <;> omega
  · intro s g hph hcomp hcnt hq
    rw [detectLeftGaze, if_neg (by simp [hph, hcomp]), if_pos hq,
      if_pos (by rw [hcnt]; omega)]
    exact ⟨rfl, rfl⟩
  · intro s g hph hcomp hcnt hq
    rw [detectRightGaze, if_neg (by simp [hph, hcomp]), if_pos hq,
      if_pos (by rw [hcnt]; omega)]
    exact ⟨rfl, rfl⟩

/-- Witness for C9: the counter-9 state fires and resets on a qualifying
frame. -/
theorem c9_sustain_counter_range_witness :
    (detectLeftGaze { initState with leftGazeFrames := 9 } (7/10)).1.leftGazeFrames = 0
    ∧ (detectLeftGaze { initState with leftGazeFrames := 9 } (7/10)).2 = true :=
  c9_sustain_counter_range.2.1 { initState with leftGazeFrames := 9 } (7/10)
    rfl rfl (by norm_num [leftGazeRequired]) (by rw [leftGazeThreshold]; norm_num)

end IrisTracker
